import Mathlib

/-!
Verification of the palm-capture phase state machines of the
tfjs-palm-live-app repository.

The two screens (guided capture and mini-game) are embedded as pure
transition functions over explicit state records.  Timestamps and
normalized coordinates are rationals; the record-store append performed
by `saveEmbedding` is modelled as an explicit `Option (List Point)`
output of the transition (the averaged embedding handed to the store),
and the asynchronous resolution of that append is modelled by separate
resolution functions that return the console output and whether the
promise rejection escaped unhandled.
-/

namespace PalmCapture

/-- A single hand landmark in normalized image coordinates. -/
structure Point where
  x : ℚ
  y : ℚ
  z : ℚ
  deriving DecidableEq

/-- Default point used for out-of-range list indexing; never reached on
frames with enough landmarks. -/
def pt0 : Point := ⟨0, 0, 0⟩

/-- Palm-openness heuristic (`isPalmOpen`, game screen): false for an
absent hand or fewer than 21 landmarks, otherwise true iff the x-spread
of the fingertips (indices 8, 20, 4, 12, 16) exceeds 0.15. -/
def isPalmOpen (landmarks : Option (List Point)) : Bool :=
  match landmarks with
  | none => false
  | some lms =>
    if lms.length < 21 then false
    else
      let indexTip := lms.getD 8 pt0
      let pinkyTip := lms.getD 20 pt0
      let thumbTip := lms.getD 4 pt0
      let middleTip := lms.getD 12 pt0
      let ringTip := lms.getD 16 pt0
      let spread := |indexTip.x - pinkyTip.x| + |thumbTip.x - indexTip.x|
        + |middleTip.x - ringTip.x|
      decide (spread > 15 / 100)

/-- The source constant GUIDE_BOX_RATIO = 0.6 of the guided screen. -/
def guideBoxScale : ℚ := 6 / 10

/-- Region evaluator (`isHandInBox`, guided screen): every landmark's
pixel-projected coordinate must lie inside the centered square of side
min(width, height) * 0.6, bounds inclusive. -/
def isHandInBox (lms : List Point) (width height : ℚ) : Bool :=
  let cx := width / 2
  let cy := height / 2
  let size := min width height * guideBoxScale
  lms.all fun lm =>
    let x := lm.x * width
    let y := lm.y * height
    decide (cx - size / 2 ≤ x) && decide (x ≤ cx + size / 2) &&
      decide (cy - size / 2 ≤ y) && decide (y ≤ cy + size / 2)

/-- Per-index arithmetic mean of a buffer of frames: the averaging loop
shared verbatim by both screens' `saveEmbedding`.  The source reads
`frames[0].length`; both callers guard against an empty buffer before
the loop runs, so the empty case is mapped to `[]`. -/
def average (frames : List (List Point)) : List Point :=
  match frames with
  | [] => []
  | f0 :: _ =>
    (List.range f0.length).map fun i =>
      { x := (frames.map fun f => (f.getD i pt0).x).sum / (frames.length : ℚ)
        y := (frames.map fun f => (f.getD i pt0).y).sum / (frames.length : ℚ)
        z := (frames.map fun f => (f.getD i pt0).z).sum / (frames.length : ℚ) }

inductive GuidedPhase where
  | action
  | hold
  | done
  deriving DecidableEq

/-- Mutable per-session state of the guided screen (phaseRef,
phaseStartRef, holdFramesRef, progress, status). -/
structure GuidedState where
  phase : GuidedPhase
  phaseStart : ℚ
  holdFrames : List (List Point)
  progress : ℚ
  status : String
  deriving DecidableEq

def ACTION_TIME : ℚ := 4000
def HOLD_TIME : ℚ := 5000

/-- Synchronous prefix of the guided screen's `saveEmbedding`: either
the empty-buffer guard (status message, phase reset, no write) or the
computation of the averaged embedding handed to the record store. -/
def saveEmbeddingGuided (s : GuidedState) : GuidedState × Option (List Point) :=
  if s.holdFrames = [] then
    ({ s with status := "No hand detected. Try again ✋"
            , phase := GuidedPhase.action
            , progress := 0 }, none)
  else
    (s, some (average s.holdFrames))

/-- Resolution of the guided screen's `saveEmbedding` promise after the
record-store append.  There is no try/catch in the source: on success
the status is updated and the 3000 ms re-arm timeout is scheduled
(first boolean); on failure nothing after the await runs and the
rejection escapes unhandled (second boolean). -/
def guidedSaveResolve (s : GuidedState) (appendOk : Bool) :
    GuidedState × Bool × Bool :=
  if appendOk then
    ({ s with status := "🌟 Palm embedding saved! 🎉" }, true, false)
  else (s, false, true)

/-- The guided screen's 3000 ms re-arm timeout callback. -/
def guidedRearm (s : GuidedState) : GuidedState :=
  { s with phase := GuidedPhase.action, progress := 0, holdFrames := []
         , status := "Move your hand inside the guide box..." }

/-- One guided tick with a detected hand (`handleHand`): out-of-box
frames only update the status; in-box frames drive the action/hold
timers, the hold buffer and, on hold completion, the save. -/
def handleHand (s : GuidedState) (lms : List Point) (width height now : ℚ) :
    GuidedState × Option (List Point) :=
  if isHandInBox lms width height = false then
    ({ s with status := "Keep your hand inside the guide box..." }, none)
  else
    let elapsed := now - s.phaseStart
    match s.phase with
    | GuidedPhase.action =>
      let s1 := { s with progress := min (elapsed / ACTION_TIME) 1
                       , status := "Move your hand (" ++
                           toString ⌊min (elapsed / ACTION_TIME * 100) (100 : ℚ)⌋
                           ++ "%)" }
      if ACTION_TIME ≤ elapsed then
        ({ s1 with phase := GuidedPhase.hold, phaseStart := now
                 , holdFrames := [], progress := 0
                 , status := "Hold your hand steady for 5 seconds..." }, none)
      else (s1, none)
    | GuidedPhase.hold =>
      let s1 := { s with holdFrames := s.holdFrames ++ [lms]
                       , progress := min (elapsed / HOLD_TIME) 1
                       , status := "Hold steady (" ++
                           toString ⌊min (elapsed / HOLD_TIME * 100) (100 : ℚ)⌋
                           ++ "%)" }
      if HOLD_TIME ≤ elapsed then
        saveEmbeddingGuided
          { s1 with progress := 1, status := "Saving your palm embedding… 🎉"
                  , phase := GuidedPhase.done }
      else (s1, none)
    | GuidedPhase.done => (s, none)

/-- One iteration of the guided screen's `detectLoop` after detection
has returned: a detected hand goes through `handleHand`, no hand resets
to `action` with a cleared buffer and zero progress. -/
def guidedTick (s : GuidedState) (det : Option (List Point))
    (width height now : ℚ) : GuidedState × Option (List Point) :=
  match det with
  | some lms => handleHand s lms width height now
  | none =>
    ({ s with holdFrames := [], phase := GuidedPhase.action, phaseStart := now
            , progress := 0, status := "Show your hand inside the guide box..." },
      none)

inductive GamePhase where
  | idle
  | rules
  | game
  | postHit
  | finished
  deriving DecidableEq

/-- Mutable per-session state of the game screen. -/
structure GameState where
  phase : GamePhase
  phaseStart : ℚ
  gameStart : ℚ
  holdFrames : List (List Point)
  progress : ℚ
  score : ℕ
  target : ℚ × ℚ
  rulesCountdown : ℤ
  gameTimeLeft : ℤ
  status : String
  deriving DecidableEq

def ACTION_HOLD_TIME : ℚ := 5000
def RULES_TIME : ℚ := 10000
def GAME_TIME : ℚ := 60000

/-- Synchronous prefix of the game screen's `saveEmbedding`: the
empty-buffer guard is a bare `return` (no message, no state change),
otherwise the averaged embedding is handed to the record store. -/
def saveEmbeddingGame (s : GameState) : GameState × Option (List Point) :=
  if s.holdFrames = [] then (s, none) else (s, some (average s.holdFrames))

/-- Resolution of the game screen's `saveEmbedding` promise: the store
append is wrapped in try/catch, so both outcomes resolve, each emitting
a console line; the boolean records an unhandled rejection (never). -/
def gameSaveResolve (appendOk : Bool) : List String × Bool :=
  if appendOk then (["Palm embedding saved!"], false)
  else (["Failed to save embedding:"], false)

/-- Rules-phase tick (`updateRulesPhase`). -/
def updateRulesPhase (s : GameState) (now : ℚ) : GameState :=
  let elapsed := now - s.phaseStart
  let remaining := max 0 (RULES_TIME - elapsed)
  let s1 := { s with rulesCountdown := ⌈remaining / 1000⌉
                   , status := "📖 Rules: Move your wrist to the red dot to score. After each hit, show a wide-open palm for 5s to capture embedding. Countdown: "
                       ++ toString ⌈remaining / 1000⌉ ++ "s" }
  if RULES_TIME ≤ elapsed then
    { s1 with phase := GamePhase.game, phaseStart := now, gameStart := now
            , gameTimeLeft := 60
            , status := "🎮 Game started! Move your wrist to the target." }
  else s1

/-- Game-phase tick (`updateGamePhase`).  The end-of-game check runs
before the hit test.  The source compares `sqrt(dx²+dy²) < radius`;
with a positive radius this is `dx² + dy² < radius²`, the form used
here to stay inside rational arithmetic.  `rx, ry` are the two uniform
random draws used for the next target on a hit. -/
def updateGamePhase (s : GameState) (wrist : Point) (now rx ry radius : ℚ) :
    GameState :=
  let elapsed := now - s.gameStart
  let s1 := { s with gameTimeLeft := max 0 ⌈(GAME_TIME - elapsed) / 1000⌉ }
  if GAME_TIME ≤ elapsed then
    { s1 with phase := GamePhase.finished
            , status := "🏁 Game over! Final Score: " ++ toString s.score }
  else
    let dx := wrist.x - s.target.1
    let dy := wrist.y - s.target.2
    if dx * dx + dy * dy < radius * radius then
      { s1 with score := s.score + 1, target := (rx, ry)
              , phase := GamePhase.postHit, phaseStart := now
              , holdFrames := [], progress := 0
              , status := "✋ Show a wide-open palm for 5 seconds!" }
    else s1

/-- Post-hit tick (`updatePostHitPhase`): a closed palm restarts the
hold timer; an open palm accumulates the frame and, when the hold
elapses, triggers the save and the transition back to `game`. -/
def updatePostHitPhase (s : GameState) (lms : List Point) (now : ℚ) :
    GameState × Option (List Point) :=
  if isPalmOpen (some lms) = false then
    ({ s with phaseStart := now, holdFrames := [], progress := 0
            , status := "✋ Keep your palm wide open! Timer reset." }, none)
  else
    let s1 := { s with holdFrames := s.holdFrames ++ [lms] }
    let elapsed := now - s.phaseStart
    let s2 := { s1 with progress := min (elapsed / ACTION_HOLD_TIME) 1 }
    if ACTION_HOLD_TIME ≤ elapsed then
      let r := saveEmbeddingGame s2
      ({ r.1 with phase := GamePhase.game, phaseStart := now, progress := 0
                , status := "🎮 Back to game! Move your wrist to the next target."
                , holdFrames := [] }, r.2)
    else (s2, none)

/-- One iteration of the game screen's `detectLoop` after detection has
returned: with no hand, only the rules countdown display is reset; with
a hand, the current phase's tick runs (idle and finished have no case
in the source switch). -/
def gameTick (s : GameState) (det : Option (List Point))
    (now rx ry radius : ℚ) : GameState × Option (List Point) :=
  match det with
  | none =>
    (if s.phase = GamePhase.rules then { s with rulesCountdown := 7 } else s,
      none)
  | some lms =>
    match s.phase with
    | GamePhase.rules => (updateRulesPhase s now, none)
    | GamePhase.game => (updateGamePhase s (lms.getD 0 pt0) now rx ry radius, none)
    | GamePhase.postHit => updatePostHitPhase s lms now
    | _ => (s, none)

/-- The constant point of the round-trip property (x=0.3, y=0.4, z=0.1). -/
def cpt : Point := ⟨3 / 10, 4 / 10, 1 / 10⟩

/-- A 21-landmark frame whose points are all `cpt`. -/
def cFrame21 : List Point := List.replicate 21 cpt

/-- A 21-landmark frame centered in a 640x480 view, inside the guide box. -/
def inBoxFrame : List Point := List.replicate 21 ⟨1 / 2, 1 / 2, 0⟩

/-- A 21-landmark frame whose fingertip x-spread passes the openness
threshold (only the thumb tip, index 4, is displaced). -/
def openFrame : List Point :=
  List.replicate 4 pt0 ++ (⟨1 / 2, 0, 0⟩ : Point) :: List.replicate 16 pt0

def demoActionState : GuidedState := ⟨GuidedPhase.action, 0, [], 0, "s"⟩

def emptyGuidedState : GuidedState := ⟨GuidedPhase.done, 0, [], 1, "s"⟩

def doneGuidedState : GuidedState := ⟨GuidedPhase.done, 0, [cFrame21], 1, "s"⟩

def emptyGameState : GameState :=
  ⟨GamePhase.postHit, 0, 0, [], 0, 3, (1 / 2, 1 / 2), 7, 60, "prev"⟩

def demoPostHitState : GameState :=
  ⟨GamePhase.postHit, 0, 0, [], 0, 0, (1 / 2, 1 / 2), 7, 60, "s"⟩

def demoGameState : GameState :=
  ⟨GamePhase.game, 0, 0, [], 0, 2, (1 / 2, 1 / 2), 7, 60, "s"⟩

def demoFinishedState : GameState :=
  ⟨GamePhase.finished, 0, 0, [], 0, 5, (1 / 2, 1 / 2), 7, 0, "s"⟩

lemma getD_eq_get_of_lt (l : List Point) (i : ℕ) (h : i < l.length) :
    l.getD i pt0 = l.get ⟨i, h⟩ := by
  rw [List.getD_eq_getElem l pt0 h, List.get_eq_getElem]

lemma map_getD_range (l : List Point) :
    (List.range l.length).map (fun i => l.getD i pt0) = l := by
  apply List.ext_getElem
  · simp
  · intro i h1 h2
    simp only [List.getElem_map, List.getElem_range]
    exact List.getD_eq_getElem l pt0 h2

/-- C4: the palm-openness evaluator returns false for an absent hand and
for fewer than 21 landmarks; with at least 21 landmarks it returns true
iff |x8 − x20| + |x4 − x8| + |x12 − x16| > 0.15 on the normalized x
coordinates; and it is a pure function of its input, so equal inputs
always yield the same boolean. -/
theorem isPalmOpen_spec :
    isPalmOpen none = false
    ∧ (∀ lms : List Point, lms.length < 21 → isPalmOpen (some lms) = false)
    ∧ (∀ (lms : List Point) (h : 21 ≤ lms.length),
        (isPalmOpen (some lms) = true ↔
          |(lms.get ⟨8, by omega⟩).x - (lms.get ⟨20, by omega⟩).x|
            + |(lms.get ⟨4, by omega⟩).x - (lms.get ⟨8, by omega⟩).x|
            + |(lms.get ⟨12, by omega⟩).x - (lms.get ⟨16, by omega⟩).x|
            > 15 / 100))
    ∧ (∀ a b : Option (List Point), a = b → isPalmOpen a = isPalmOpen b) := by
  refine ⟨rfl, ?_, ?_, ?_⟩
  · intro lms h
    simp [isPalmOpen, h]
  · intro lms h
    have hnot : ¬ lms.length < 21 := by omega
    simp only [isPalmOpen, if_neg hnot, decide_eq_true_iff]
    rw [getD_eq_get_of_lt lms 8 (by omega), getD_eq_get_of_lt lms 20 (by omega),
      getD_eq_get_of_lt lms 4 (by omega), getD_eq_get_of_lt lms 12 (by omega),
      getD_eq_get_of_lt lms 16 (by omega)]
  · intro a b h
    rw [h]

theorem isPalmOpen_spec_witness :
    ([pt0] : List Point).length < 21 ∧ isPalmOpen (some [pt0]) = false :=
  ⟨by decide, isPalmOpen_spec.2.1 [pt0] (by decide)⟩

/-- C5: for a 21-landmark frame, the region evaluator accepts iff every
landmark's pixel projection lies within the centered square of side
min(width, height) * 0.6, bounds inclusive, and rejects whenever a
single landmark lies strictly outside that square. -/
theorem isHandInBox_spec (lms : List Point) (width height : ℚ)
    (h21 : lms.length = 21) :
    (isHandInBox lms width height = true ↔
      ∀ lm ∈ lms,
        |lm.x * width - width / 2| ≤ min width height * guideBoxScale / 2
        ∧ |lm.y * height - height / 2| ≤ min width height * guideBoxScale / 2)
    ∧ (∀ lm ∈ lms,
        (min width height * guideBoxScale / 2 < |lm.x * width - width / 2|
          ∨ min width height * guideBoxScale / 2 < |lm.y * height - height / 2|) →
        isHandInBox lms width height = false) := by
  have key : isHandInBox lms width height = true ↔
      ∀ lm ∈ lms,
        |lm.x * width - width / 2| ≤ min width height * guideBoxScale / 2
        ∧ |lm.y * height - height / 2| ≤ min width height * guideBoxScale / 2 := by
    unfold isHandInBox
    rw [List.all_eq_true]
    constructor
    · intro h lm hlm
      have h2 := h lm hlm
      simp only [Bool.and_eq_true, decide_eq_true_iff] at h2
      obtain ⟨⟨⟨h3, h4⟩, h5⟩, h6⟩ := h2
      constructor
      · rw [abs_le]
        constructor <;> linarith
      · rw [abs_le]
        constructor <;> linarith
    · intro h lm hlm
      obtain ⟨hx, hy⟩ := h lm hlm
      rw [abs_le] at hx hy
      simp only [Bool.and_eq_true, decide_eq_true_iff]
      refine ⟨⟨⟨?_, ?_⟩, ?_⟩, ?_⟩ <;> linarith [hx.1, hx.2, hy.1, hy.2]
  refine ⟨key, ?_⟩
  intro lm hlm hout
  cases hb : isHandInBox lms width height with
  | false => rfl
  | true =>
    exfalso
    obtain ⟨hx, hy⟩ := key.mp hb lm hlm
    rcases hout with h | h <;> linarith

theorem isHandInBox_spec_witness :
    inBoxFrame.length = 21
    ∧ (isHandInBox inBoxFrame 640 480 = true ↔
        ∀ lm ∈ inBoxFrame,
          |lm.x * 640 - 640 / 2| ≤ min (640 : ℚ) 480 * guideBoxScale / 2
          ∧ |lm.y * 480 - 480 / 2| ≤ min (640 : ℚ) 480 * guideBoxScale / 2) :=
  ⟨by decide, (isHandInBox_spec inBoxFrame 640 480 (by decide)).1⟩

/-- C2: for a non-empty buffer of equal-length frames, the aggregator
returns one frame of that same length whose point at every index has x,
y and z equal to the arithmetic mean, over the input frames, of the
point at that index. -/
theorem average_spec (frames : List (List Point)) (n : ℕ)
    (hne : frames ≠ []) (hlen : ∀ f ∈ frames, f.length = n) :
    (average frames).length = n
    ∧ ∀ i, i < n →
        (average frames).getD i pt0 =
          { x := (frames.map fun f => (f.getD i pt0).x).sum / (frames.length : ℚ)
          , y := (frames.map fun f => (f.getD i pt0).y).sum / (frames.length : ℚ)
          , z := (frames.map fun f => (f.getD i pt0).z).sum / (frames.length : ℚ) } := by
  obtain ⟨f0, rest, rfl⟩ := List.exists_cons_of_ne_nil hne
  have h0 : f0.length = n := hlen f0 (by simp)
  constructor
  · simp [average, h0]
  · intro i hi
    have hlt : i < ((List.range f0.length).map
        (fun i =>
          ({ x := (((f0 :: rest).map fun f => (f.getD i pt0).x).sum /
                ((f0 :: rest).length : ℚ))
           , y := (((f0 :: rest).map fun f => (f.getD i pt0).y).sum /
                ((f0 :: rest).length : ℚ))
           , z := (((f0 :: rest).map fun f => (f.getD i pt0).z).sum /
                ((f0 :: rest).length : ℚ)) } : Point))).length := by
      simp [h0, hi]
    show ((List.range f0.length).map _).getD i pt0 = _
    rw [List.getD_eq_getElem _ pt0 hlt]
    simp only [List.getElem_map, List.getElem_range]

theorem average_spec_witness :
    ([cFrame21] : List (List Point)) ≠ []
    ∧ (average [cFrame21]).length = 21 :=
  ⟨by decide, (average_spec [cFrame21] 21 (by decide) (by decide)).1⟩

lemma average_replicate_eq (f : List Point) (N : ℕ) (hN : 0 < N) :
    average (List.replicate N f) = f := by
  obtain ⟨M, rfl⟩ : ∃ M, N = M + 1 := ⟨N - 1, by omega⟩
  rw [List.replicate_succ]
  show (List.range f.length).map _ = f
  have hcast : ((M : ℚ) + 1) ≠ 0 := by positivity
  have hstep : ∀ g : List Point → ℚ,
      ((f :: List.replicate M f).map g).sum /
        (((f :: List.replicate M f).length : ℕ) : ℚ) = g f := by
    intro g
    rw [List.map_cons, List.map_replicate, List.sum_cons, List.sum_replicate]
    rw [nsmul_eq_mul]
    simp only [List.length_cons, List.length_replicate]
    push_cast
    field_simp
    ring
  have hfun : (fun i =>
      ({ x := ((f :: List.replicate M f).map fun fr => (fr.getD i pt0).x).sum /
            (((f :: List.replicate M f).length : ℕ) : ℚ)
       , y := ((f :: List.replicate M f).map fun fr => (fr.getD i pt0).y).sum /
            (((f :: List.replicate M f).length : ℕ) : ℚ)
       , z := ((f :: List.replicate M f).map fun fr => (fr.getD i pt0).z).sum /
            (((f :: List.replicate M f).length : ℕ) : ℚ) } : Point)) =
      fun i => f.getD i pt0 := by
    funext i
    rw [hstep (fun fr => (fr.getD i pt0).x), hstep (fun fr => (fr.getD i pt0).y),
      hstep (fun fr => (fr.getD i pt0).z)]
  rw [hfun, map_getD_range]

/-- C7: the aggregator is invariant under permutations of the frame
order, maps N copies of one frame back to that frame, and on a buffer
whose frames consist entirely of the constant point (0.3, 0.4, 0.1)
yields the 21-point constant frame. -/
theorem average_algebraic :
    (∀ (frames frames' : List (List Point)) (n : ℕ),
      frames ≠ [] → (∀ f ∈ frames, f.length = n) → frames.Perm frames' →
        average frames = average frames')
    ∧ (∀ (f : List Point) (N : ℕ), 0 < N → average (List.replicate N f) = f)
    ∧ (∀ frames : List (List Point), frames ≠ [] →
        (∀ f ∈ frames, f = cFrame21) → average frames = cFrame21) := by
  refine ⟨?_, ?_, ?_⟩
  · intro frames frames' n hne hlen hperm
    obtain ⟨f0, rest, rfl⟩ := List.exists_cons_of_ne_nil hne
    have hne' : frames' ≠ [] := by
      intro h
      subst h
      exact List.cons_ne_nil f0 rest hperm.eq_nil
    obtain ⟨g0, rest', rfl⟩ := List.exists_cons_of_ne_nil hne'
    have hf0 : f0.length = n := hlen f0 (by simp)
    have hg0 : g0.length = n := hlen g0 (hperm.mem_iff.2 (by simp))
    have hlen_eq : ((f0 :: rest).length : ℚ) = ((g0 :: rest').length : ℚ) := by
      rw [hperm.length_eq]
    show (List.range f0.length).map _ = (List.range g0.length).map _
    rw [hf0, hg0]
    congr 1
    funext i
    have hsx := (hperm.map fun f => (f.getD i pt0).x).sum_eq
    have hsy := (hperm.map fun f => (f.getD i pt0).y).sum_eq
    have hsz := (hperm.map fun f => (f.getD i pt0).z).sum_eq
    simp only [Point.mk.injEq]
    rw [hsx, hsy, hsz, hlen_eq]
    exact ⟨rfl, rfl, rfl⟩
  · exact average_replicate_eq
  · intro frames hne hall
    have hrep : frames = List.replicate frames.length cFrame21 :=
      List.eq_replicate_of_mem hall
    rw [hrep]
    exact average_replicate_eq cFrame21 frames.length
      (by simpa [List.length_pos] using hne)

theorem average_algebraic_witness :
    0 < 3 ∧ average (List.replicate 3 cFrame21) = cFrame21 :=
  ⟨by decide, average_algebraic.2.1 cFrame21 3 (by decide)⟩

/-- C1: guided-variant phase timing: on a tick with a 21-point in-box
frame, `action` transitions to `hold` exactly when elapsed ≥ 4000 ms
and never earlier, resetting the phase clock, clearing the hold buffer
and zeroing progress; `hold` transitions to `done` exactly when elapsed
≥ 5000 ms and never earlier, setting progress to 1 and handing the
averaged buffer to the record store. -/
theorem guided_phase_timing (s : GuidedState) (lms : List Point)
    (width height now : ℚ) (h21 : lms.length = 21)
    (hin : isHandInBox lms width height = true) :
    (s.phase = GuidedPhase.action →
      (((guidedTick s (some lms) width height now).1.phase = GuidedPhase.hold)
          ↔ ACTION_TIME ≤ now - s.phaseStart)
      ∧ (ACTION_TIME ≤ now - s.phaseStart →
          (guidedTick s (some lms) width height now).1.phaseStart = now
          ∧ (guidedTick s (some lms) width height now).1.holdFrames = []
          ∧ (guidedTick s (some lms) width height now).1.progress = 0))
    ∧ (s.phase = GuidedPhase.hold →
      (((guidedTick s (some lms) width height now).1.phase = GuidedPhase.done)
          ↔ HOLD_TIME ≤ now - s.phaseStart)
      ∧ (HOLD_TIME ≤ now - s.phaseStart →
          (guidedTick s (some lms) width height now).1.progress = 1
          ∧ (guidedTick s (some lms) width height now).2
              = some (average (s.holdFrames ++ [lms])))) := by
  obtain ⟨ph, pstart, frames, prog, st⟩ := s
  constructor
  · intro hphase
    simp only at hphase
    subst hphase
    by_cases h : ACTION_TIME ≤ now - pstart
    · simp [guidedTick, handleHand, hin, h]
    · simp [guidedTick, handleHand, hin, h]
  · intro hphase
    simp only at hphase
    subst hphase
    by_cases h : HOLD_TIME ≤ now - pstart
    · simp [guidedTick, handleHand, hin, h, saveEmbeddingGuided]
    · simp [guidedTick, handleHand, hin, h]

lemma inBoxFrame_in_box : isHandInBox inBoxFrame 640 480 = true := by
  simp only [isHandInBox, List.all_eq_true]
  intro lm hlm
  rw [inBoxFrame, List.mem_replicate] at hlm
  obtain ⟨-, rfl⟩ := hlm
  simp only [Bool.and_eq_true, decide_eq_true_iff]
  norm_num [guideBoxScale, min_def]

lemma openFrame_open : isPalmOpen (some openFrame) = true := by
  have hlen : ¬ openFrame.length < 21 := by norm_num [openFrame]
  have h8 : openFrame.getD 8 pt0 = pt0 := rfl
  have h20 : openFrame.getD 20 pt0 = pt0 := rfl
  have h4 : openFrame.getD 4 pt0 = (⟨1 / 2, 0, 0⟩ : Point) := rfl
  have h12 : openFrame.getD 12 pt0 = pt0 := rfl
  have h16 : openFrame.getD 16 pt0 = pt0 := rfl
  simp only [isPalmOpen, if_neg hlen, decide_eq_true_iff, h8, h20, h4, h12, h16]
  norm_num [pt0]
  rw [abs_of_nonneg (by norm_num : (0 : ℚ) ≤ 1 / 2)]
  norm_num

theorem guided_phase_timing_witness :
    (inBoxFrame.length = 21 ∧ isHandInBox inBoxFrame 640 480 = true)
    ∧ ((guidedTick demoActionState (some inBoxFrame) 640 480 4000).1.phase
          = GuidedPhase.hold
        ↔ ACTION_TIME ≤ (4000 : ℚ) - demoActionState.phaseStart) :=
  ⟨⟨by decide, inBoxFrame_in_box⟩,
    ((guided_phase_timing demoActionState inBoxFrame 640 480 4000
      (by decide) inBoxFrame_in_box).1 rfl).1⟩

lemma gameTick_postHit_eq (s : GameState) (lms : List Point)
    (now rx ry radius : ℚ) (h : s.phase = GamePhase.postHit) :
    gameTick s (some lms) now rx ry radius = updatePostHitPhase s lms now := by
  obtain ⟨ph, a, b, c, d, e, f, g, i, j⟩ := s
  simp only at h
  subst h
  rfl

lemma gameTick_game_eq (s : GameState) (lms : List Point)
    (now rx ry radius : ℚ) (h : s.phase = GamePhase.game) :
    gameTick s (some lms) now rx ry radius =
      (updateGamePhase s (lms.getD 0 pt0) now rx ry radius, none) := by
  obtain ⟨ph, a, b, c, d, e, f, g, i, j⟩ := s
  simp only at h
  subst h
  rfl

/-- Completion of the post-hit hold: with an open palm and elapsed at or
beyond the hold time, the tick emits the averaged buffer (with the new
frame appended) and transitions back to `game` with the clock reset,
zero progress and a cleared buffer. -/
lemma updatePostHitPhase_complete (s : GameState) (lms : List Point) (now : ℚ)
    (hopen : isPalmOpen (some lms) = true)
    (hel : ACTION_HOLD_TIME ≤ now - s.phaseStart) :
    updatePostHitPhase s lms now =
      ({ s with phase := GamePhase.game, phaseStart := now, progress := 0
              , holdFrames := []
              , status := "🎮 Back to game! Move your wrist to the next target." },
        some (average (s.holdFrames ++ [lms]))) := by
  obtain ⟨ph, a, b, c, d, e, f, g, i, j⟩ := s
  simp only [ACTION_HOLD_TIME] at hel
  simp [updatePostHitPhase, hopen, hel, saveEmbeddingGame, ACTION_HOLD_TIME]

/-- C3: game-variant post-hit behaviour: with a closed palm the phase
clock is reset, the buffer cleared, progress zeroed and the phase stays
`postHit`; with an open palm the frame is appended and progress is
clamp(elapsed / 5000, 0, 1); at elapsed ≥ 5000 ms the averaged buffer
is handed to the record store and the phase returns to `game` with the
clock reset, progress 0 and a cleared buffer, leaving score and target
unchanged. -/
theorem postHit_tick_spec (s : GameState) (lms : List Point)
    (now rx ry radius : ℚ) (hphase : s.phase = GamePhase.postHit)
    (hts : s.phaseStart ≤ now) :
    (isPalmOpen (some lms) = false →
      gameTick s (some lms) now rx ry radius =
        ({ s with phaseStart := now, holdFrames := [], progress := 0
                , status := "✋ Keep your palm wide open! Timer reset." }, none))
    ∧ (isPalmOpen (some lms) = true →
      (now - s.phaseStart < ACTION_HOLD_TIME →
        ((gameTick s (some lms) now rx ry radius).1.holdFrames
            = s.holdFrames ++ [lms]
        ∧ (gameTick s (some lms) now rx ry radius).1.progress
            = max 0 (min ((now - s.phaseStart) / ACTION_HOLD_TIME) 1)
        ∧ (gameTick s (some lms) now rx ry radius).1.phase = GamePhase.postHit
        ∧ (gameTick s (some lms) now rx ry radius).2 = none))
      ∧ (ACTION_HOLD_TIME ≤ now - s.phaseStart →
        ((gameTick s (some lms) now rx ry radius).2
            = some (average (s.holdFrames ++ [lms]))
        ∧ (gameTick s (some lms) now rx ry radius).1.phase = GamePhase.game
        ∧ (gameTick s (some lms) now rx ry radius).1.phaseStart = now
        ∧ (gameTick s (some lms) now rx ry radius).1.progress = 0
        ∧ (gameTick s (some lms) now rx ry radius).1.holdFrames = []
        ∧ (gameTick s (some lms) now rx ry radius).1.score = s.score
        ∧ (gameTick s (some lms) now rx ry radius).1.target = s.target))) := by
  obtain ⟨ph, a, b, c, d, e, f, g, i, j⟩ := s
  simp only at hphase hts
  subst hphase
  rw [gameTick_postHit_eq _ lms now rx ry radius rfl]
  constructor
  · intro hclosed
    simp [updatePostHitPhase, hclosed]
  · intro hopen
    constructor
    · intro hlt
      simp only at hlt
      have hnot : ¬ ACTION_HOLD_TIME ≤ now - a := by linarith
      have h0 : (0 : ℚ) ≤ (now - a) / ACTION_HOLD_TIME := by
        apply div_nonneg (by linarith)
        norm_num [ACTION_HOLD_TIME]
      have hmax : max 0 (min ((now - a) / ACTION_HOLD_TIME) 1)
          = min ((now - a) / ACTION_HOLD_TIME) 1 :=
        max_eq_right (le_min_iff.mpr ⟨h0, by norm_num⟩)
      simp only [updatePostHitPhase, hopen]
      simp only [if_neg hnot]
      simp [hmax]
    · intro hel
      simp only at hel
      rw [updatePostHitPhase_complete _ lms now hopen hel]
      simp

theorem postHit_tick_spec_witness :
    (demoPostHitState.phase = GamePhase.postHit
      ∧ demoPostHitState.phaseStart ≤ (5000 : ℚ)
      ∧ isPalmOpen (some openFrame) = true
      ∧ ACTION_HOLD_TIME ≤ (5000 : ℚ) - demoPostHitState.phaseStart)
    ∧ (gameTick demoPostHitState (some openFrame) 5000 0 0 (7 / 100)).1.phase
        = GamePhase.game :=
  ⟨⟨rfl, by norm_num [demoPostHitState], openFrame_open,
      by norm_num [demoPostHitState, ACTION_HOLD_TIME]⟩,
    (((postHit_tick_spec demoPostHitState openFrame 5000 0 0 (7 / 100) rfl
        (by norm_num [demoPostHitState])).2 openFrame_open).2
      (by norm_num [demoPostHitState, ACTION_HOLD_TIME])).2.1⟩

/-- C6: game-variant game-over rule: on a `game` tick with a detected
hand, once the elapsed game time (from the separate game-start clock)
exceeds 60000 ms the phase transitions to `finished`, the score is not
incremented and the target is not redrawn regardless of the wrist
position (the check precedes the hit test); and from `finished` a tick
changes nothing, with or without a hand. -/
theorem game_over_rule :
    (∀ (s : GameState) (lms : List Point) (now rx ry radius : ℚ),
      s.phase = GamePhase.game → GAME_TIME < now - s.gameStart →
        ((gameTick s (some lms) now rx ry radius).1.phase = GamePhase.finished
        ∧ (gameTick s (some lms) now rx ry radius).1.score = s.score
        ∧ (gameTick s (some lms) now rx ry radius).1.target = s.target
        ∧ (gameTick s (some lms) now rx ry radius).2 = none))
    ∧ (∀ (s : GameState) (det : Option (List Point)) (now rx ry radius : ℚ),
        s.phase = GamePhase.finished →
          gameTick s det now rx ry radius = (s, none)) := by
  constructor
  · intro s lms now rx ry radius hphase hgt
    rw [gameTick_game_eq s lms now rx ry radius hphase]
    obtain ⟨ph, a, b, c, d, e, f, g, i, j⟩ := s
    simp only at hphase hgt
    subst hphase
    have hge : GAME_TIME ≤ now - b := le_of_lt hgt
    simp [updateGamePhase, hge]
  · intro s det now rx ry radius hphase
    obtain ⟨ph, a, b, c, d, e, f, g, i, j⟩ := s
    simp only at hphase
    subst hphase
    cases det with
    | none => rfl
    | some lms => rfl

theorem game_over_rule_witness :
    (GAME_TIME < (61000 : ℚ) - demoGameState.gameStart
      ∧ (gameTick demoGameState (some openFrame) 61000 0 0 (7 / 100)).1.phase
          = GamePhase.finished)
    ∧ gameTick demoFinishedState none 0 0 0 0 = (demoFinishedState, none) :=
  ⟨⟨by norm_num [demoGameState, GAME_TIME],
      (game_over_rule.1 demoGameState openFrame 61000 0 0 (7 / 100) rfl
        (by norm_num [demoGameState, GAME_TIME])).1⟩,
    game_over_rule.2 demoFinishedState none 0 0 0 0 rfl⟩

/-- C8 fails as stated: in the game variant a save invoked on an empty
buffer writes nothing but also surfaces no "no hand detected" message
and performs no phase change — the state comes back untouched, still in
`postHit`. -/
theorem empty_save_game_counterexample :
    (saveEmbeddingGame emptyGameState).2 = none
    ∧ (saveEmbeddingGame emptyGameState).1.status ≠ "No hand detected. Try again ✋"
    ∧ (saveEmbeddingGame emptyGameState).1.phase = GamePhase.postHit := by
  refine ⟨rfl, ?_, rfl⟩
  intro h
  simp [saveEmbeddingGame, emptyGameState] at h

/-- C8 amended: an empty-buffer save aborts without writing in both
variants; the guided variant additionally surfaces the "no hand
detected" message and resets the phase to `action` with progress 0,
while the game variant returns silently with no state change and no
message. -/
theorem empty_save_guard (sg : GuidedState) (sm : GameState)
    (hg : sg.holdFrames = []) (hm : sm.holdFrames = []) :
    saveEmbeddingGuided sg =
      ({ sg with status := "No hand detected. Try again ✋"
               , phase := GuidedPhase.action, progress := 0 }, none)
    ∧ saveEmbeddingGame sm = (sm, none) := by
  constructor
  · simp [saveEmbeddingGuided, hg]
  · simp [saveEmbeddingGame, hm]

theorem empty_save_guard_witness :
    (emptyGuidedState.holdFrames = [] ∧ emptyGameState.holdFrames = [])
    ∧ saveEmbeddingGame emptyGameState = (emptyGameState, none) :=
  ⟨⟨rfl, rfl⟩, (empty_save_guard emptyGuidedState emptyGameState rfl rfl).2⟩

/-- C9 fails as stated: in the guided variant a record-store failure is
not caught — the rejection escapes unhandled — and the re-arm scheduled
on success never happens, so the state does not advance as it would on
a successful save. -/
theorem persistence_failure_counterexample :
    (guidedSaveResolve doneGuidedState false).2.2 = true
    ∧ (guidedSaveResolve doneGuidedState false).2.1 = false
    ∧ (guidedSaveResolve doneGuidedState false).1 = doneGuidedState :=
  ⟨rfl, rfl, rfl⟩

/-- C9 amended: the game variant catches either save outcome and logs a
console line, never leaking a rejection, and its tick state (the return
to `game`) is computed before the save resolves, independent of the
outcome; the guided variant catches nothing — on failure the rejection
escapes unhandled, the state is left frozen and no re-arm is scheduled,
while on success the re-arm is scheduled and its callback resets the
phase to `action` with cleared buffer and zero progress. -/
theorem persistence_failure_spec :
    (∀ ok : Bool, (gameSaveResolve ok).2 = false ∧ (gameSaveResolve ok).1 ≠ [])
    ∧ (∀ s : GuidedState,
        guidedSaveResolve s false = (s, false, true)
        ∧ (guidedSaveResolve s true).2.1 = true
        ∧ guidedRearm (guidedSaveResolve s true).1 =
            { s with phase := GuidedPhase.action, progress := 0, holdFrames := []
                   , status := "Move your hand inside the guide box..." }) := by
  constructor
  · intro ok
    cases ok <;> exact ⟨rfl, by simp [gameSaveResolve]⟩
  · intro s
    obtain ⟨ph, a, fr, p, st⟩ := s
    exact ⟨rfl, rfl, rfl⟩

theorem persistence_failure_spec_witness :
    (gameSaveResolve false).2 = false
    ∧ (guidedSaveResolve emptyGuidedState false).2.2 = true :=
  ⟨(persistence_failure_spec.1 false).1, by
    rw [(persistence_failure_spec.2 emptyGuidedState).1]⟩

/-- C10: game-variant hand-absence inertness: a no-hand tick leaves the
entire state unchanged in `game`, `postHit` and `finished`; in `rules`
it only resets the displayed countdown to 7; and the post-hit hold
timer keeps running across a hand-absence gap, so the hold completes on
the first open-palm frame whose elapsed time passes 5000 ms. -/
theorem no_hand_inertness :
    (∀ (s : GameState) (now rx ry radius : ℚ),
      (s.phase = GamePhase.game ∨ s.phase = GamePhase.postHit
        ∨ s.phase = GamePhase.finished) →
      gameTick s none now rx ry radius = (s, none))
    ∧ (∀ (s : GameState) (now rx ry radius : ℚ), s.phase = GamePhase.rules →
        gameTick s none now rx ry radius = ({ s with rulesCountdown := 7 }, none))
    ∧ (∀ (s : GameState) (lms : List Point) (gap now rx ry radius : ℚ),
        s.phase = GamePhase.postHit → isPalmOpen (some lms) = true →
        ACTION_HOLD_TIME ≤ now - s.phaseStart →
        ((gameTick (gameTick s none gap rx ry radius).1 (some lms)
              now rx ry radius).2
            = some (average (s.holdFrames ++ [lms]))
        ∧ (gameTick (gameTick s none gap rx ry radius).1 (some lms)
              now rx ry radius).1.phase
            = GamePhase.game)) := by
  refine ⟨?_, ?_, ?_⟩
  · intro s now rx ry radius hph
    obtain ⟨ph, a, b, c, d, e, f, g, i, j⟩ := s
    rcases hph with h | h | h <;> (simp only at h; subst h; rfl)
  · intro s now rx ry radius hph
    obtain ⟨ph, a, b, c, d, e, f, g, i, j⟩ := s
    simp only at hph
    subst hph
    rfl
  · intro s lms gap now rx ry radius hph hopen hel
    obtain ⟨ph, a, b, c, d, e, f, g, i, j⟩ := s
    simp only at hph hel
    subst hph
    have h1 : (gameTick
        ⟨GamePhase.postHit, a, b, c, d, e, f, g, i, j⟩ none gap rx ry radius).1 =
        ⟨GamePhase.postHit, a, b, c, d, e, f, g, i, j⟩ := rfl
    rw [h1, gameTick_postHit_eq _ lms now rx ry radius rfl,
      updatePostHitPhase_complete _ lms now hopen hel]
    simp

theorem no_hand_inertness_witness :
    (demoPostHitState.phase = GamePhase.game
      ∨ demoPostHitState.phase = GamePhase.postHit
      ∨ demoPostHitState.phase = GamePhase.finished)
    ∧ gameTick demoPostHitState none 1000 0 0 (7 / 100) = (demoPostHitState, none) :=
  ⟨Or.inr (Or.inl rfl),
    no_hand_inertness.1 demoPostHitState 1000 0 0 (7 / 100) (Or.inr (Or.inl rfl))⟩

end PalmCapture
